import Mathlib

/-!
Verification development for a browser-based direct-messaging client backed by
a managed relational database (profiles, messages, conversations) with
server-side SQL procedures and a realtime change feed.

The definitions below are shallow embeddings of the repository's code:
* the SQL procedures `mark_messages_as_seen`, `mark_messages_as_delivered` and
  `get_or_create_conversation` from the migration files;
* the client message store (`fetchMessages`, `sendMessage`, the realtime
  insert/update handlers) from the `useMessages` hook;
* the user search (`searchUserByUsername` plus the component-side
  self-exclusion filter);
* the session bootstrap (`ensureProfileExists` and the chat room's
  local placeholder profile fallback).

Ids and timestamps are modelled as natural numbers (message ids as `Nat`,
auth/user ids as `Nat` except in the session bootstrap where the code slices
the textual id, so there they are `String`).  The database tables are lists of
rows; the JS stable `Array.prototype.sort` and SQL `ORDER BY` are modelled by
a stable insertion sort.
-/

/-- Message status enumeration from the `message_status` SQL enum:
`('sending', 'sent', 'delivered', 'seen')`. -/
inductive MsgStatus where
  | sending
  | sent
  | delivered
  | seen
deriving DecidableEq

/-- Position of a status in the forward chain sending → sent → delivered → seen. -/
def statusRank : MsgStatus → Nat
  | .sending => 0
  | .sent => 1
  | .delivered => 2
  | .seen => 3

/-- Minimal sender profile joined onto client messages
(`user_profile:profiles!user_id (username, full_name, avatar_url)`). -/
structure ProfileMini where
  username : String
  full_name : Option String
  avatar_url : Option String
deriving DecidableEq

/-- A row of the `messages` table as stored server-side. -/
structure MessageRow where
  id : Nat
  content : String
  user_id : Nat
  recipient_id : Nat
  conversation_id : Option Nat
  created_at : Nat
  sent_at : Option Nat
  delivered_at : Option Nat
  seen_at : Option Nat
  status : MsgStatus
deriving DecidableEq

/-- A client-side message: a `messages` row joined with the sender's
minimal profile, as produced by the select with the `user_profile` join. -/
structure Message where
  id : Nat
  content : String
  user_id : Nat
  recipient_id : Nat
  conversation_id : Option Nat
  created_at : Nat
  sent_at : Option Nat
  delivered_at : Option Nat
  seen_at : Option Nat
  status : MsgStatus
  user_profile : ProfileMini
deriving DecidableEq

/-! ### Stable sorting (model of JS stable `Array.sort` and SQL `ORDER BY`) -/

/-- Insert `x` into `l` before the first element `y` with `le x y`.
For elements comparing equal this places `x` before later equal elements,
which is exactly the stable behaviour. -/
def insertByLe (le : α → α → Bool) (x : α) : List α → List α
  | [] => [x]
  | y :: ys => if le x y then x :: y :: ys else y :: insertByLe le x ys

/-- Stable insertion sort with respect to a boolean comparison. -/
def sortByLe (le : α → α → Bool) : List α → List α
  | [] => []
  | x :: xs => insertByLe le x (sortByLe le xs)

theorem insertByLe_perm (le : α → α → Bool) (x : α) (l : List α) :
    List.Perm (insertByLe le x l) (x :: l) := by
  induction l with
  | nil => exact List.Perm.refl [x]
  | cons y ys ih =>
    by_cases h : le x y
    · simp only [insertByLe, if_pos h]
      exact List.Perm.refl (x :: y :: ys)
    · simp only [insertByLe, if_neg h]
      exact List.Perm.trans (List.Perm.cons y ih) (List.Perm.swap x y ys)

theorem sortByLe_perm (le : α → α → Bool) (l : List α) :
    List.Perm (sortByLe le l) l := by
  induction l with
  | nil => exact List.Perm.refl []
  | cons x xs ih =>
    exact List.Perm.trans (insertByLe_perm le x (sortByLe le xs)) (List.Perm.cons x ih)

theorem mem_insertByLe (le : α → α → Bool) (x a : α) (l : List α) :
    a ∈ insertByLe le x l ↔ a = x ∨ a ∈ l := by
  rw [(insertByLe_perm le x l).mem_iff]
  simp

theorem mem_sortByLe (le : α → α → Bool) (a : α) (l : List α) :
    a ∈ sortByLe le l ↔ a ∈ l := (sortByLe_perm le l).mem_iff

/-- Sortedness with respect to a boolean comparison. -/
def SortedLe (le : α → α → Bool) (l : List α) : Prop :=
  l.Pairwise (fun a b => le a b = true)

theorem sortedLe_insertByLe (le : α → α → Bool)
    (htot : ∀ a b, le a b = true ∨ le b a = true)
    (htr : ∀ a b c, le a b = true → le b c = true → le a c = true)
    (x : α) (l : List α) (h : SortedLe le l) :
    SortedLe le (insertByLe le x l) := by
  induction l with
  | nil =>
    show List.Pairwise _ [x]
    exact List.pairwise_singleton _ x
  | cons y ys ih =>
    rcases List.pairwise_cons.mp h with ⟨hy, hys⟩
    by_cases hxy : le x y
    · show List.Pairwise _ (insertByLe le x (y :: ys))
      simp only [insertByLe, if_pos hxy]
      refine List.pairwise_cons.mpr ⟨?_, h⟩
      intro z hz
      rcases List.mem_cons.mp hz with rfl | hz
      · exact hxy
      · exact htr x y z hxy (hy z hz)
    · have hyx : le y x = true := (htot x y).resolve_left hxy
      show List.Pairwise _ (insertByLe le x (y :: ys))
      simp only [insertByLe, if_neg hxy]
      refine List.pairwise_cons.mpr ⟨?_, ih hys⟩
      intro z hz
      rcases (mem_insertByLe le x z ys).mp hz with rfl | hz
      · exact hyx
      · exact hy z hz

theorem sortedLe_sortByLe (le : α → α → Bool)
    (htot : ∀ a b, le a b = true ∨ le b a = true)
    (htr : ∀ a b c, le a b = true → le b c = true → le a c = true)
    (l : List α) : SortedLe le (sortByLe le l) := by
  induction l with
  | nil => exact List.Pairwise.nil
  | cons x xs ih => exact sortedLe_insertByLe le htot htr x (sortByLe le xs) ih

/-! ### Server-side SQL procedures -/

/-- Row-level effect of the SQL procedure `mark_messages_as_seen(sender_id,
viewer_id)`: a row is updated (seen_at set, status set to 'seen') exactly when
`user_id = sender_id AND recipient_id = viewer_id AND seen_at IS NULL`. -/
def markSeenRow (sender_id viewer_id now : Nat) (m : MessageRow) : MessageRow :=
  if m.user_id = sender_id ∧ m.recipient_id = viewer_id ∧ m.seen_at = none then
    { m with seen_at := some now, status := .seen }
  else m

/-- The SQL procedure `mark_messages_as_seen` applied to the whole
`messages` table. -/
def mark_messages_as_seen (sender_id viewer_id now : Nat)
    (tbl : List MessageRow) : List MessageRow :=
  tbl.map (markSeenRow sender_id viewer_id now)

/-- Row-level effect of the (fixed) SQL procedure
`mark_messages_as_delivered(p_recipient_id)`: a row is updated (delivered_at
set, status set to 'delivered') exactly when `recipient_id = p_recipient_id
AND status = 'sent' AND delivered_at IS NULL`. -/
def markDeliveredRow (p_recipient_id now : Nat) (m : MessageRow) : MessageRow :=
  if m.recipient_id = p_recipient_id ∧ m.status = .sent ∧ m.delivered_at = none then
    { m with delivered_at := some now, status := .delivered }
  else m

/-- The SQL procedure `mark_messages_as_delivered` applied to the whole
`messages` table. -/
def mark_messages_as_delivered (p_recipient_id now : Nat)
    (tbl : List MessageRow) : List MessageRow :=
  tbl.map (markDeliveredRow p_recipient_id now)

/-- A row of the `conversations` table (participant pair stored
canonically, smaller id in `user1_id`). -/
structure Conversation where
  id : Nat
  user1_id : Nat
  user2_id : Nat
deriving DecidableEq

/-- State of the `conversations` table together with a fresh-id supply
modelling `gen_random_uuid()`. -/
structure ConvState where
  convs : List Conversation
  nextId : Nat
deriving DecidableEq

/-- Canonical smaller participant: `IF user1 < user2 THEN user1 ELSE user2`. -/
def min_user (user1 user2 : Nat) : Nat :=
  if user1 < user2 then user1 else user2

/-- Canonical larger participant: `IF user1 < user2 THEN user2 ELSE user1`. -/
def max_user (user1 user2 : Nat) : Nat :=
  if user1 < user2 then user2 else user1

/-- Lookup predicate for the ordered canonical pair
(`WHERE user1_id = min_user AND user2_id = max_user`). -/
def convPairPred (user1 user2 : Nat) (c : Conversation) : Bool :=
  c.user1_id == min_user user1 user2 && c.user2_id == max_user user1 user2

/-- The SQL function `get_or_create_conversation(user1, user2)`: canonicalize
the pair smaller-first, look up an existing row for the ordered pair, insert a
new row when absent, and return the row id (with the resulting table state). -/
def get_or_create_conversation (user1 user2 : Nat) (st : ConvState) :
    Nat × ConvState :=
  match st.convs.find? (convPairPred user1 user2) with
  | some c => (c.id, st)
  | none =>
      (st.nextId,
       { convs := st.convs ++
           [{ id := st.nextId, user1_id := min_user user1 user2,
              user2_id := max_user user1 user2 }],
         nextId := st.nextId + 1 })

/-! ### Client message store (`useMessages`) -/

/-- Relevance of a (sender, recipient) pair to the current (self, peer) pair:
the pair must match in one of the two directions.  This is both the `or`
filter of the history query and the `isRelevantMessage` check of the
realtime handlers. -/
def relevantPair (selfId peerId user_id recipient_id : Nat) : Bool :=
  (user_id == selfId && recipient_id == peerId) ||
  (user_id == peerId && recipient_id == selfId)

/-- Comparison used by `order('created_at', ascending)` and by the client-side
re-sort `new Date(a.created_at).getTime() - new Date(b.created_at).getTime()`. -/
def msgLe (a b : Message) : Bool :=
  decide (a.created_at ≤ b.created_at)

/-- The history load: filter the messages exchanged between the two
identities (either direction), order by creation time ascending, and limit
the result to 100 rows. -/
def fetchMessages (selfId peerId : Nat) (db : List Message) : List Message :=
  (sortByLe msgLe
    (db.filter (fun m => relevantPair selfId peerId m.user_id m.recipient_id))).take 100

/-- Payload of a realtime insert/update event for the `messages` table. -/
structure EventPayload where
  id : Nat
  user_id : Nat
  recipient_id : Nat
deriving DecidableEq

/-- The `isRelevantMessage` check of the realtime handlers. -/
def isRelevantEvent (selfId peerId : Nat) (ev : EventPayload) : Bool :=
  relevantPair selfId peerId ev.user_id ev.recipient_id

/-- Effect of the realtime INSERT handler on the visible message list:
irrelevant events are dropped; for a relevant event the single message is
re-fetched joined with its sender profile (modelled as a lookup in `db`); a
message whose id is already present is ignored; otherwise the fetched message
is appended and the list is re-sorted by creation time. -/
def handleInsertEvent (selfId peerId : Nat) (ev : EventPayload)
    (db prev : List Message) : List Message :=
  if isRelevantEvent selfId peerId ev then
    match db.find? (fun m => m.id == ev.id) with
    | some data =>
        if prev.any (fun m => m.id == data.id) then prev
        else sortByLe msgLe (prev ++ [data])
    | none => prev
  else prev

/-- Effect of the realtime UPDATE handler on the visible message list:
irrelevant events are dropped; for a relevant event the refreshed joined
record replaces the local message with the matching id. -/
def handleUpdateEvent (selfId peerId : Nat) (ev : EventPayload)
    (db prev : List Message) : List Message :=
  if isRelevantEvent selfId peerId ev then
    match db.find? (fun m => m.id == ev.id) with
    | some data => prev.map (fun m => if m.id == data.id then data else m)
    | none => prev
  else prev

/-- Backend calls issued by the message store. -/
inductive StoreCall where
  | fetchMsgs (selfId peerId : Nat)
  | rpcSeen (sender_id viewer_id : Nat)
  | rpcDelivered (p_recipient_id : Nat)
  | updLastSeen (userId : Nat)
deriving DecidableEq

/-- Calls issued by the `useMessages` effect when it runs (history load):
it invokes `fetchMessages()` and `markMessagesAsSeen()`, the latter being the
`mark_messages_as_seen` RPC with the peer as sender and the current user as
viewer.  No call is issued without a selected peer or a loaded user. -/
def useMessagesLoadCalls (recipientId : Option Nat) (authLoading : Bool)
    (currentUser : Option Nat) : List StoreCall :=
  match recipientId with
  | none => []
  | some peer =>
    if authLoading then []
    else
      match currentUser with
      | none => []
      | some selfId => [.fetchMsgs selfId peer, .rpcSeen peer selfId]

/-- JS `x || dflt` on an optional string (empty string is falsy). -/
def jsStrOr (o : Option String) (dflt : String) : String :=
  match o with
  | some s => if s = "" then dflt else s
  | none => dflt

/-- JS `x || null` on an optional string (empty string is falsy). -/
def jsStrOrNull (o : Option String) : Option String :=
  match o with
  | some s => if s = "" then none else some s
  | none => none

/-- Environment of one `sendMessage` call: outcomes of the backend
operations it performs and the clocks/ids involved. -/
structure SendCtx where
  profileRes : Option ProfileMini
  convResult : Option Nat
  insertError : Option String
  serverId : Nat
  dbNow : Nat
  recipientActive : Bool
  joinedProfile : ProfileMini
  tempId : Nat
  clientNow : Nat
deriving DecidableEq

/-- The optimistic placeholder appended before the durable write: temporary
id, status 'sending', no milestone timestamps, sender profile from the
pre-send profile fetch with fallbacks. -/
def optimisticMessage (content : String) (userId recipientId : Nat)
    (ctx : SendCtx) : Message :=
  { id := ctx.tempId, content := content, user_id := userId,
    recipient_id := recipientId, conversation_id := none,
    created_at := ctx.clientNow, sent_at := none, delivered_at := none,
    seen_at := none, status := .sending,
    user_profile :=
      { username := jsStrOr (ctx.profileRes.map (fun p => p.username)) "user",
        full_name := jsStrOrNull (ctx.profileRes.bind (fun p => p.full_name)),
        avatar_url := jsStrOrNull (ctx.profileRes.bind (fun p => p.avatar_url)) } }

/-- The durable row returned by the insert: the payload carries status 'sent'
and `sent_at`; the `auto_mark_delivered` BEFORE INSERT trigger upgrades it to
'delivered' when the recipient was active within the last five minutes. -/
def insertedMessage (content : String) (userId recipientId : Nat)
    (ctx : SendCtx) : Message :=
  let base : Message :=
    { id := ctx.serverId, content := content, user_id := userId,
      recipient_id := recipientId, conversation_id := ctx.convResult,
      created_at := ctx.dbNow, sent_at := some ctx.clientNow,
      delivered_at := none, seen_at := none, status := .sent,
      user_profile := ctx.joinedProfile }
  if ctx.recipientActive then
    { base with delivered_at := some ctx.dbNow, status := .delivered }
  else base

/-- Result of a `sendMessage` call: the final visible message list, the
re-raised error (if any), and the follow-up backend calls issued. -/
structure SendResult where
  messages : List Message
  thrown : Option String
  calls : List StoreCall
deriving DecidableEq

/-- The send path: append the optimistic placeholder, then perform the
durable insert.  On failure, remove the placeholder by its temporary id and
re-raise the error.  On success, replace the placeholder by the durable
record and issue the two follow-up calls (update sender's last_seen, mark
messages delivered to the sender). -/
def sendMessage (prev : List Message) (content : String)
    (userId recipientId : Nat) (ctx : SendCtx) : SendResult :=
  let optimistic := optimisticMessage content userId recipientId ctx
  let withOpt := prev ++ [optimistic]
  match ctx.insertError with
  | some e =>
      { messages := withOpt.filter (fun m => m.id != optimistic.id),
        thrown := some e, calls := [] }
  | none =>
      let sent := insertedMessage content userId recipientId ctx
      { messages := withOpt.map (fun m => if m.id == optimistic.id then sent else m),
        thrown := none,
        calls := [.updLastSeen userId, .rpcDelivered userId] }

/-! ### User search (`useUserSearch` and the `UserSearch` component) -/

/-- A row of the `profiles` table as seen by the search. -/
structure Profile where
  id : Nat
  username : String
  full_name : Option String
  avatar_url : Option String
  last_seen : Option Nat
  created_at : Option Nat
deriving DecidableEq

/-- Whitespace trim (model of JS `String.prototype.trim`), computed on the
character list so that it evaluates by kernel reduction. -/
def jsTrim (s : String) : String :=
  String.mk (((s.data.dropWhile Char.isWhitespace).reverse.dropWhile
    Char.isWhitespace).reverse)

/-- ASCII-style lowering (model of case folding in `ilike`), computed on the
character list. -/
def lowerString (s : String) : String :=
  String.mk (s.data.map Char.toLower)

/-- Does the string start with an at sign? -/
def startsWithAt (t : String) : Bool :=
  match t.data with
  | c :: _ => c == '@'
  | [] => false

/-- Substring test on character lists. -/
def charsContains : List Char → List Char → Bool
  | needle, [] => needle.isEmpty
  | needle, c :: rest => needle.isPrefixOf (c :: rest) || charsContains needle rest

/-- Case-insensitive substring match, modelling `ilike '%needle%'`. -/
def containsCI (hay needle : String) : Bool :=
  charsContains (lowerString needle).data (lowerString hay).data

/-- Strip a single leading at sign, as in `searchTerm.startsWith('@') ?
searchTerm.slice(1) : searchTerm`. -/
def stripAtSign (t : String) : String :=
  if startsWithAt t then String.mk (t.data.drop 1) else t

/-- Alphabetical ordering on usernames for `order('username')`. -/
def usernameLe (p q : Profile) : Bool :=
  decide (p.username ≤ q.username)

/-- The fuzzy search: empty (or `@`-only) terms clear the results; otherwise
profiles whose username contains the cleaned term case-insensitively are
returned in alphabetical order, capped at 10. -/
def searchUserByUsername (searchTerm : String) (profiles : List Profile) :
    List Profile :=
  if jsTrim searchTerm = "" then []
  else
    let cleanUsername := stripAtSign searchTerm
    if jsTrim cleanUsername = "" then []
    else
      (sortByLe usernameLe
        (profiles.filter (fun p => containsCI p.username cleanUsername))).take 10

/-- The component-side filter over the search results: the searching user's
own id is removed before rendering/selection
(`searchResults.filter(user => user.id !== currentUserId)`). -/
def selectableResults (currentUserId : Option Nat) (results : List Profile) :
    List Profile :=
  results.filter (fun p =>
    match currentUserId with
    | some cid => p.id != cid
    | none => true)

/-! ### Session bootstrap (`useAuth.ensureProfileExists` and the chat room
profile fallback) -/

/-- The authenticated identity as far as profile bootstrap needs it. -/
structure AuthUser where
  id : String
  email : Option String
  metaUsername : Option String
  metaFullName : Option String
deriving DecidableEq

/-- A row of the `profiles` table for the bootstrap path (textual ids, since
the code slices the identity id). -/
structure ProfileRow where
  id : String
  username : String
  full_name : Option String
  avatar_url : Option String
  created_at : Option Nat
  last_seen : Option Nat
deriving DecidableEq

/-- Local part of an email address: `email.split('@')[0]`. -/
def emailLocalPart (email : String) : String :=
  (email.splitOn "@").headD ""

/-- Default handle derivation: `user_metadata.username ||
email.split('@')[0] || 'user_' + id.slice(0, 8)`. -/
def deriveUsername (u : AuthUser) : String :=
  match jsStrOrNull u.metaUsername with
  | some s => s
  | none =>
    match jsStrOrNull (u.email.map emailLocalPart) with
    | some s => s
    | none => "user_" ++ u.id.take 8

/-- Default display name derivation: `user_metadata.full_name ||
user_metadata.username || email.split('@')[0] || 'User'`. -/
def deriveFullName (u : AuthUser) : String :=
  match jsStrOrNull u.metaFullName with
  | some s => s
  | none =>
    match jsStrOrNull u.metaUsername with
    | some s => s
    | none =>
      match jsStrOrNull (u.email.map emailLocalPart) with
      | some s => s
      | none => "User"

/-- Result of `ensureProfileExists`: the profile handed back to the caller,
the row durably inserted (if any), and the error propagated (always none —
the function catches everything and returns null instead of throwing). -/
structure EnsureResult where
  result : Option ProfileRow
  inserted : Option ProfileRow
  thrown : Option String
deriving DecidableEq

/-- The profile row `ensureProfileExists` inserts when none is found. -/
def ensureNewProfile (u : AuthUser) (now : Nat) : ProfileRow :=
  { id := u.id, username := deriveUsername u,
    full_name := some (deriveFullName u), avatar_url := none,
    created_at := some now, last_seen := some now }

/-- `ensureProfileExists`: read the profile first (`maybeSingle`); when found
without error, return it; when absent, insert a new profile with the derived
handle and display name; on create error, log and return null without
throwing; on a fetch error with no row, log and return null. -/
def ensureProfileExists (u : AuthUser) (db : List ProfileRow)
    (fetchError : Option String) (insertError : Option String) (now : Nat) :
    EnsureResult :=
  let existingProfile := db.find? (fun p => p.id == u.id)
  match existingProfile, fetchError with
  | some p, none => { result := some p, inserted := none, thrown := none }
  | none, _ =>
      let newProfile := ensureNewProfile u now
      match insertError with
      | some _ => { result := none, inserted := none, thrown := none }
      | none => { result := some newProfile, inserted := some newProfile, thrown := none }
  | some _, some _ => { result := none, inserted := none, thrown := none }

/-- The chat room's locally synthesized minimal profile, used so the user is
never blocked when no profile can be read or created. -/
def minimalProfile (u : AuthUser) (now : Nat) : ProfileRow :=
  { id := u.id,
    username := jsStrOr (u.email.map emailLocalPart) "user",
    full_name := some (jsStrOr (u.email.map emailLocalPart) "User"),
    avatar_url := none, created_at := some now, last_seen := none }

/-- The profile the chat room inserts when the fetch errored with no row. -/
def chatRoomCreatedProfile (u : AuthUser) (now : Nat) : ProfileRow :=
  { id := u.id, username := deriveUsername u,
    full_name := some (deriveFullName u), avatar_url := none,
    created_at := some now, last_seen := none }

/-- The chat room's `fetchCurrentUserProfile` flow: on a fetch error it tries
to create the profile and falls back to the minimal local profile when the
create fails; with a row it uses it; with no row and no error it synthesizes
the minimal profile directly. -/
def fetchCurrentUserProfile (u : AuthUser)
    (fetchRes : Except String (Option ProfileRow))
    (createError : Option String) (now : Nat) : Option ProfileRow :=
  match fetchRes with
  | .error _ =>
      match createError with
      | some _ => some (minimalProfile u now)
      | none => some (chatRoomCreatedProfile u now)
  | .ok (some p) => some p
  | .ok none => some (minimalProfile u now)

/-! ### Shared helper lemmas -/

theorem statusRank_le_three (st : MsgStatus) : statusRank st ≤ 3 := by
  cases st <;> decide

theorem map_id_on (f : α → α) (l : List α) (h : ∀ a ∈ l, f a = a) :
    l.map f = l := by
  induction l with
  | nil => rfl
  | cons x xs ih =>
    simp only [List.map_cons]
    rw [h x (List.mem_cons_self x xs), ih (fun a ha => h a (List.mem_cons_of_mem x ha))]

theorem filter_id_on (p : α → Bool) (l : List α) (h : ∀ a ∈ l, p a = true) :
    l.filter p = l := by
  induction l with
  | nil => rfl
  | cons x xs ih =>
    rw [List.filter_cons_of_pos (h x (List.mem_cons_self x xs)),
      ih (fun a ha => h a (List.mem_cons_of_mem x ha))]

theorem markSeenRow_idem (s v n1 n2 : Nat) (m : MessageRow) :
    markSeenRow s v n2 (markSeenRow s v n1 m) = markSeenRow s v n1 m := by
  by_cases h : m.user_id = s ∧ m.recipient_id = v ∧ m.seen_at = none
  · simp only [markSeenRow, if_pos h]
    simp
  · simp only [markSeenRow, if_neg h]

/-! ### Concrete sample data used by witnesses -/

def rowA : MessageRow :=
  { id := 1, content := "hi", user_id := 1, recipient_id := 2,
    conversation_id := none, created_at := 10, sent_at := some 10,
    delivered_at := none, seen_at := none, status := .sent }

def profA : ProfileMini :=
  { username := "alice", full_name := none, avatar_url := none }

def msgA : Message :=
  { id := 3, content := "yo", user_id := 1, recipient_id := 2,
    conversation_id := none, created_at := 4, sent_at := some 4,
    delivered_at := none, seen_at := none, status := .sent,
    user_profile := profA }

def ctxOk : SendCtx :=
  { profileRes := none, convResult := some 7, insertError := none,
    serverId := 42, dbNow := 11, recipientActive := false,
    joinedProfile := profA, tempId := 999, clientNow := 10 }

def ctxFail : SendCtx :=
  { ctxOk with insertError := some "boom" }

/-! ### Claim theorems -/

/-- Claim C10: `mark_messages_as_seen(sender_id, viewer_id)` updates only the
rows whose sender is `sender_id`, whose recipient is `viewer_id` and whose
`seen_at` is null, setting `seen_at` and status 'seen'; every other row is
left unchanged; and a second call with the same arguments (at any later
clock) changes nothing. -/
theorem mark_messages_as_seen_frame_and_idempotent :
    (∀ s v now (m : MessageRow),
       (m.user_id = s ∧ m.recipient_id = v ∧ m.seen_at = none →
          markSeenRow s v now m = { m with seen_at := some now, status := .seen }) ∧
       (¬(m.user_id = s ∧ m.recipient_id = v ∧ m.seen_at = none) →
          markSeenRow s v now m = m)) ∧
    (∀ s v now (tbl : List MessageRow),
       (mark_messages_as_seen s v now tbl).length = tbl.length) ∧
    (∀ s v n1 n2 (tbl : List MessageRow),
       mark_messages_as_seen s v n2 (mark_messages_as_seen s v n1 tbl)
         = mark_messages_as_seen s v n1 tbl) := by
  refine ⟨?_, ?_, ?_⟩
  · intro s v now m
    constructor
    · intro h
      simp only [markSeenRow, if_pos h]
    · intro h
      simp only [markSeenRow, if_neg h]
  · intro s v now tbl
    simp [mark_messages_as_seen]
  · intro s v n1 n2 tbl
    unfold mark_messages_as_seen
    induction tbl with
    | nil => rfl
    | cons x xs ih =>
      simp only [List.map_cons]
      rw [markSeenRow_idem, ih]

/-- Claim C10 witness at a concrete row. -/
theorem mark_messages_as_seen_frame_witness :
    markSeenRow 1 2 5 rowA = { rowA with seen_at := some 5, status := MsgStatus.seen } :=
  (mark_messages_as_seen_frame_and_idempotent.1 1 2 5 rowA).1 (by decide)

/-- Claim C1: a message's status only moves forward through the chain
sending → sent → delivered → seen and never backward:
`mark_messages_as_seen` never lowers the rank and only ever sets 'seen';
`mark_messages_as_delivered` never lowers the rank and only changes rows
whose status is 'sent' (to 'delivered'); and on a successful send the client
replaces the 'sending' placeholder by the durable record, whose status is
'sent' (or 'delivered' if the auto-delivery trigger fired), strictly ahead of
'sending'. -/
theorem message_status_monotonic :
    (∀ s v now (m : MessageRow),
        statusRank m.status ≤ statusRank (markSeenRow s v now m).status) ∧
    (∀ s v now (m : MessageRow),
        (markSeenRow s v now m).status = m.status ∨
        (markSeenRow s v now m).status = .seen) ∧
    (∀ p now (m : MessageRow),
        statusRank m.status ≤ statusRank (markDeliveredRow p now m).status) ∧
    (∀ p now (m : MessageRow),
        markDeliveredRow p now m ≠ m →
        m.status = .sent ∧ (markDeliveredRow p now m).status = .delivered) ∧
    (∀ prev content u r ctx,
        ctx.insertError = none →
        (∀ m ∈ prev, m.id ≠ ctx.tempId) →
        (optimisticMessage content u r ctx).status = .sending ∧
        (sendMessage prev content u r ctx).messages
          = prev ++ [insertedMessage content u r ctx] ∧
        statusRank MsgStatus.sending
          < statusRank (insertedMessage content u r ctx).status ∧
        (ctx.recipientActive = false →
          (insertedMessage content u r ctx).status = .sent)) := by
  refine ⟨?_, ?_, ?_, ?_, ?_⟩
  · intro s v now m
    unfold markSeenRow
    split
    · exact statusRank_le_three m.status
    · exact Nat.le_refl _
  · intro s v now m
    unfold markSeenRow
    split
    · right; rfl
    · left; rfl
  · intro p now m
    unfold markDeliveredRow
    split
    · next h =>
      rw [h.2.1]
      show statusRank MsgStatus.sent ≤ statusRank MsgStatus.delivered
      decide
    · exact Nat.le_refl _
  · intro p now m hne
    by_cases h : m.recipient_id = p ∧ m.status = .sent ∧ m.delivered_at = none
    · refine ⟨h.2.1, ?_⟩
      simp only [markDeliveredRow, if_pos h]
    · exfalso
      apply hne
      simp only [markDeliveredRow, if_neg h]
  · intro prev content u r ctx hins hfresh
    refine ⟨rfl, ?_, ?_, ?_⟩
    · simp only [sendMessage, hins]
      rw [List.map_append]
      congr 1
      · apply map_id_on
        intro m hm
        have hne := hfresh m hm
        simp [optimisticMessage, hne]
      · simp
    · simp only [insertedMessage]
      split
      · show statusRank MsgStatus.sending < statusRank MsgStatus.delivered
        decide
      · show statusRank MsgStatus.sending < statusRank MsgStatus.sent
        decide
    · intro hra
      simp [insertedMessage, hra]

/-- Claim C1 witness: a concrete successful send replaces the placeholder by
the durable record. -/
theorem message_status_monotonic_witness :
    (sendMessage [] "hi" 1 2 ctxOk).messages = [insertedMessage "hi" 1 2 ctxOk] :=
  (message_status_monotonic.2.2.2.2 [] "hi" 1 2 ctxOk rfl (by simp)).2.1

/-- Claim C4: when the durable insert fails, `sendMessage` removes exactly
the optimistic placeholder (matched by its temporary id, which does not
occur in the prior list), leaves the rest of the list as it was, re-raises
the error, and issues no follow-up calls. -/
theorem sendMessage_failure_rollback :
    ∀ prev content userId recipientId ctx e,
      ctx.insertError = some e →
      (∀ m ∈ prev, m.id ≠ ctx.tempId) →
      (sendMessage prev content userId recipientId ctx).messages = prev ∧
      (sendMessage prev content userId recipientId ctx).thrown = some e ∧
      (sendMessage prev content userId recipientId ctx).calls = [] := by
  intro prev content userId recipientId ctx e hins hfresh
  have h1 : prev.filter
      (fun m => m.id != (optimisticMessage content userId recipientId ctx).id) = prev := by
    apply filter_id_on
    intro m hm
    have hne := hfresh m hm
    simp [optimisticMessage, hne]
  have h2 : [optimisticMessage content userId recipientId ctx].filter
      (fun m => m.id != (optimisticMessage content userId recipientId ctx).id) = [] := by
    simp
  unfold sendMessage
  simp only [hins]
  refine ⟨?_, ?_, ?_⟩
  · rw [List.filter_append, h1, h2, List.append_nil]
  · first
    | rfl
    | trivial
  · first
    | rfl
    | trivial

/-- Claim C4 witness: a concrete failing send rolls the list back and
re-raises. -/
theorem sendMessage_failure_rollback_witness :
    (sendMessage [msgA] "hi" 1 2 ctxFail).messages = [msgA] :=
  (sendMessage_failure_rollback [msgA] "hi" 1 2 ctxFail "boom" rfl (by decide)).1

/-- Claim C5: a realtime insert or update event whose (sender, recipient)
pair does not match the current (self, peer) pair in either direction leaves
the visible message list unchanged. -/
theorem realtime_irrelevant_events_ignored :
    ∀ selfId peerId ev db prev,
      isRelevantEvent selfId peerId ev = false →
      handleInsertEvent selfId peerId ev db prev = prev ∧
      handleUpdateEvent selfId peerId ev db prev = prev := by
  intro selfId peerId ev db prev h
  constructor
  · simp [handleInsertEvent, h]
  · simp [handleUpdateEvent, h]

/-- Claim C5 witness: an event between unrelated users 3 and 4 leaves the
thread of (1, 2) untouched. -/
theorem realtime_irrelevant_events_witness :
    handleInsertEvent 1 2 { id := 5, user_id := 3, recipient_id := 4 } [] [msgA]
      = [msgA] :=
  (realtime_irrelevant_events_ignored 1 2
    { id := 5, user_id := 3, recipient_id := 4 } [] [msgA] (by decide)).1

/-- Claim C8 counterexample: the history-load effect of the store does not
issue the mark-delivered call for the current user (here user 1 viewing
peer 2), contradicting the claim that both side effects are issued. -/
theorem useMessagesLoad_no_delivered_call :
    StoreCall.rpcDelivered 1 ∉ useMessagesLoadCalls (some 2) false (some 1) := by
  decide

/-- Claim C8 (amended): when history loads for a selected peer, the store
issues exactly the fetch and the mark-seen-by-me call
(`mark_messages_as_seen` with the peer as sender and the current user as
viewer); no load ever issues `mark_messages_as_delivered`, which runs only in
the success path of `sendMessage` (for the current user as recipient). -/
theorem useMessagesLoad_calls_spec :
    (∀ selfId peer, useMessagesLoadCalls (some peer) false (some selfId)
       = [StoreCall.fetchMsgs selfId peer, StoreCall.rpcSeen peer selfId]) ∧
    (∀ x recipientId authLoading currentUser,
       StoreCall.rpcDelivered x ∉
         useMessagesLoadCalls recipientId authLoading currentUser) ∧
    (∀ prev content userId recipientId ctx,
       ctx.insertError = none →
       (sendMessage prev content userId recipientId ctx).calls
         = [StoreCall.updLastSeen userId, StoreCall.rpcDelivered userId]) := by
  refine ⟨?_, ?_, ?_⟩
  · intro selfId peer
    rfl
  · intro x recipientId authLoading currentUser
    rcases recipientId with _ | peer
    · simp [useMessagesLoadCalls]
    · cases authLoading
      · rcases currentUser with _ | selfId
        · simp [useMessagesLoadCalls]
        · simp [useMessagesLoadCalls]
      · simp [useMessagesLoadCalls]
  · intro prev content userId recipientId ctx h
    simp [sendMessage, h]

/-- Claim C8 witness: a concrete successful send issues the last-seen update
and the mark-delivered call. -/
theorem useMessagesLoad_calls_witness :
    (sendMessage [] "hi" 1 2 ctxOk).calls
      = [StoreCall.updLastSeen 1, StoreCall.rpcDelivered 1] :=
  useMessagesLoad_calls_spec.2.2 [] "hi" 1 2 ctxOk rfl

/-! ### Concrete sample data for the bootstrap witnesses -/

def profRowA : ProfileRow :=
  { id := "u1", username := "alice", full_name := none, avatar_url := none,
    created_at := none, last_seen := none }

def authA : AuthUser :=
  { id := "u1", email := some "alice@example.com", metaUsername := none,
    metaFullName := none }

/-- Claim C9: profile bootstrap reads first and inserts only when no profile
is found; the default handle is derived from identity metadata, else from the
local part of the email; creation failure is swallowed (nothing inserted, no
error propagated); and the chat room always ends up with some profile,
falling back to the locally synthesized placeholder when the create fails. -/
theorem ensureProfileExists_spec :
    (∀ u db ie now (p : ProfileRow),
       db.find? (fun q => q.id == u.id) = some p →
       ensureProfileExists u db none ie now
         = { result := some p, inserted := none, thrown := none }) ∧
    (∀ u db now,
       db.find? (fun q => q.id == u.id) = none →
       ensureProfileExists u db none none now
         = { result := some (ensureNewProfile u now),
             inserted := some (ensureNewProfile u now), thrown := none }) ∧
    (∀ u db fe now e,
       db.find? (fun q => q.id == u.id) = none →
       ensureProfileExists u db fe (some e) now
         = { result := none, inserted := none, thrown := none }) ∧
    (∀ u db fe ie now, (ensureProfileExists u db fe ie now).thrown = none) ∧
    (∀ u now, (ensureNewProfile u now).username = deriveUsername u) ∧
    (∀ u s, jsStrOrNull u.metaUsername = some s → deriveUsername u = s) ∧
    (∀ u s, jsStrOrNull u.metaUsername = none →
       jsStrOrNull (u.email.map emailLocalPart) = some s →
       deriveUsername u = s) ∧
    (∀ u fetchRes ce now, fetchCurrentUserProfile u fetchRes ce now ≠ none) ∧
    (∀ u fe ce now, fetchCurrentUserProfile u (Except.error fe) (some ce) now
       = some (minimalProfile u now)) := by
  refine ⟨?_, ?_, ?_, ?_, ?_, ?_, ?_, ?_, ?_⟩
  · intro u db ie now p h
    simp [ensureProfileExists, h]
  · intro u db now h
    simp [ensureProfileExists, h]
  · intro u db fe now e h
    simp [ensureProfileExists, h]
  · intro u db fe ie now
    cases hf : db.find? (fun q => q.id == u.id) with
    | none =>
      cases ie with
      | none => simp [ensureProfileExists, hf]
      | some e => simp [ensureProfileExists, hf]
    | some p =>
      cases fe with
      | none => simp [ensureProfileExists, hf]
      | some e => simp [ensureProfileExists, hf]
  · intro u now
    rfl
  · intro u s h
    unfold deriveUsername
    rw [h]
  · intro u s h1 h2
    unfold deriveUsername
    rw [h1, h2]
  · intro u fetchRes ce now
    cases fetchRes with
    | error e => cases ce <;> simp [fetchCurrentUserProfile]
    | ok op => cases op <;> simp [fetchCurrentUserProfile]
  · intro u fe ce now
    rfl

/-- Claim C9 witness: with an existing profile row the bootstrap returns it
and inserts nothing. -/
theorem ensureProfileExists_witness :
    ensureProfileExists authA [profRowA] none none 3
      = { result := some profRowA, inserted := none, thrown := none } :=
  ensureProfileExists_spec.1 authA [profRowA] none 3 profRowA (by decide)

/-! ### Conversation identity (claim C2) -/

theorem find?_append_none (p : α → Bool) (l1 l2 : List α)
    (h : l1.find? p = none) : (l1 ++ l2).find? p = l2.find? p := by
  induction l1 with
  | nil => rfl
  | cons x xs ih =>
    cases hp : p x with
    | false =>
      simp only [List.cons_append, List.find?, hp] at h ⊢
      exact ih h
    | true =>
      exfalso
      simp [List.find?, hp] at h

theorem min_user_comm (a b : Nat) : min_user a b = min_user b a := by
  unfold min_user
  rcases Nat.lt_trichotomy a b with h | h | h
  · rw [if_pos h, if_neg (Nat.lt_asymm h)]
  · subst h
    simp
  · rw [if_neg (Nat.lt_asymm h), if_pos h]

theorem max_user_comm (a b : Nat) : max_user a b = max_user b a := by
  unfold max_user
  rcases Nat.lt_trichotomy a b with h | h | h
  · rw [if_pos h, if_neg (Nat.lt_asymm h)]
  · subst h
    simp
  · rw [if_neg (Nat.lt_asymm h), if_pos h]

theorem convPairPred_comm (a b : Nat) :
    convPairPred a b = convPairPred b a := by
  funext c
  unfold convPairPred
  rw [min_user_comm, max_user_comm]

theorem min_user_le_max_user (a b : Nat) : min_user a b ≤ max_user a b := by
  unfold min_user max_user
  by_cases h : a < b
  · rw [if_pos h, if_pos h]
    exact Nat.le_of_lt h
  · rw [if_neg h, if_neg h]
    exact Nat.le_of_not_lt h

/-- The conversation row inserted by `get_or_create_conversation` when the
canonical pair is absent. -/
def newConv (a b : Nat) (st : ConvState) : Conversation :=
  { id := st.nextId, user1_id := min_user a b, user2_id := max_user a b }

theorem gcc_of_found (a b : Nat) (st : ConvState) (c : Conversation)
    (h : st.convs.find? (convPairPred a b) = some c) :
    get_or_create_conversation a b st = (c.id, st) := by
  simp [get_or_create_conversation, h]

theorem gcc_of_not_found (a b : Nat) (st : ConvState)
    (h : st.convs.find? (convPairPred a b) = none) :
    get_or_create_conversation a b st
      = (st.nextId, { convs := st.convs ++ [newConv a b st],
                      nextId := st.nextId + 1 }) := by
  simp [get_or_create_conversation, h, newConv]

theorem convPairPred_newConv (a b : Nat) (st : ConvState) :
    convPairPred a b (newConv a b st) = true := by
  simp [convPairPred, newConv]

/-- Two conversation rows cover the same unordered participant pair. -/
def samePair (c d : Conversation) : Prop :=
  (c.user1_id = d.user1_id ∧ c.user2_id = d.user2_id) ∨
  (c.user1_id = d.user2_id ∧ c.user2_id = d.user1_id)

/-- Table invariant: rows store the pair canonically (smaller id first) and
no two rows cover the same unordered pair — exactly one conversation per
unordered pair. -/
def ConvOk (st : ConvState) : Prop :=
  (∀ c ∈ st.convs, c.user1_id ≤ c.user2_id) ∧
  st.convs.Pairwise (fun c d => ¬ samePair c d)

/-- Claim C2: conversation id resolution is symmetric in the two user ids,
idempotent (a second call returns the same id and leaves the table
unchanged), returns an existing row's id when the canonical ordered pair is
present, inserts exactly one canonical row otherwise, and preserves the
one-conversation-per-unordered-pair invariant. -/
theorem get_or_create_conversation_spec :
    (∀ a b st, get_or_create_conversation a b st
       = get_or_create_conversation b a st) ∧
    (∀ a b st,
       get_or_create_conversation a b (get_or_create_conversation a b st).2
         = ((get_or_create_conversation a b st).1,
            (get_or_create_conversation a b st).2)) ∧
    (∀ a b st c, st.convs.find? (convPairPred a b) = some c →
       get_or_create_conversation a b st = (c.id, st)) ∧
    (∀ a b st, st.convs.find? (convPairPred a b) = none →
       (get_or_create_conversation a b st).1 = st.nextId ∧
       (get_or_create_conversation a b st).2.convs
         = st.convs ++ [newConv a b st]) ∧
    (∀ a b st, ConvOk st → ConvOk (get_or_create_conversation a b st).2) := by
  refine ⟨?_, ?_, ?_, ?_, ?_⟩
  · intro a b st
    unfold get_or_create_conversation
    rw [convPairPred_comm, min_user_comm, max_user_comm]
  · intro a b st
    cases hfind : st.convs.find? (convPairPred a b) with
    | some c =>
      rw [gcc_of_found a b st c hfind]
      rw [gcc_of_found a b st c hfind]
    | none =>
      rw [gcc_of_not_found a b st hfind]
      have h2 : (st.convs ++ [newConv a b st]).find? (convPairPred a b)
          = some (newConv a b st) := by
        rw [find?_append_none _ _ _ hfind]
        simp [List.find?, convPairPred_newConv a b st]
      rw [gcc_of_found a b _ (newConv a b st) h2]
      rfl
  · intro a b st c h
    exact gcc_of_found a b st c h
  · intro a b st h
    rw [gcc_of_not_found a b st h]
    exact ⟨rfl, rfl⟩
  · intro a b st hok
    cases hfind : st.convs.find? (convPairPred a b) with
    | some c =>
      rw [gcc_of_found a b st c hfind]
      exact hok
    | none =>
      rw [gcc_of_not_found a b st hfind]
      rcases hok with ⟨hcanon, hpw⟩
      have hnomatch : ∀ c ∈ st.convs, convPairPred a b c = false := by
        intro c hc
        exact Bool.eq_false_iff.mpr (List.find?_eq_none.mp hfind c hc)
      constructor
      · intro c hc
        rcases List.mem_append.mp hc with hc | hc
        · exact hcanon c hc
        · rcases List.mem_singleton.mp hc with rfl
          exact min_user_le_max_user a b
      · rw [List.pairwise_append]
        refine ⟨hpw, List.pairwise_singleton _ _, ?_⟩
        intro c hc d hd hsp
        rcases List.mem_singleton.mp hd with rfl
        have hpc : convPairPred a b c = true := by
          unfold convPairPred
          rw [Bool.and_eq_true, beq_iff_eq, beq_iff_eq]
          rcases hsp with ⟨h1, h2⟩ | ⟨h1, h2⟩
          · exact ⟨h1, h2⟩
          · have hle : max_user a b ≤ min_user a b := by
              have hc2 := hcanon c hc
              rw [h1, h2] at hc2
              exact hc2
            have hmnmx : min_user a b = max_user a b :=
              Nat.le_antisymm (min_user_le_max_user a b) hle
            constructor
            · rw [hmnmx]
              exact h1
            · rw [← hmnmx]
              exact h2
        rw [hnomatch c hc] at hpc
        exact Bool.false_ne_true hpc

def convA : Conversation := { id := 5, user1_id := 1, user2_id := 2 }

def stA : ConvState := { convs := [convA], nextId := 6 }

/-- Claim C2 witness: resolving (2, 1) against a table holding the canonical
(1, 2) row returns that row's id without mutating the table. -/
theorem get_or_create_conversation_witness :
    get_or_create_conversation 2 1 stA = (5, stA) :=
  get_or_create_conversation_spec.2.2.1 2 1 stA convA (by decide)

/-! ### User search (claim C7) -/

theorem usernameLe_total : ∀ p q : Profile,
    usernameLe p q = true ∨ usernameLe q p = true := by
  intro p q
  unfold usernameLe
  rcases le_total p.username q.username with h | h
  · left
    exact decide_eq_true h
  · right
    exact decide_eq_true h

theorem usernameLe_trans : ∀ p q r : Profile,
    usernameLe p q = true → usernameLe q r = true → usernameLe p r = true := by
  intro p q r h1 h2
  unfold usernameLe at *
  rw [decide_eq_true_eq] at *
  exact le_trans h1 h2

/-- Claim C7: the fuzzy search returns at most 10 entries, all of them
profiles whose handle contains the at-stripped term case-insensitively, in
alphabetical order by handle; every matching profile is returned when at most
10 match; and the searching user's own id never appears among the selectable
results. -/
theorem searchUserByUsername_spec :
    ∀ term profiles selfId,
      (searchUserByUsername term profiles).length ≤ 10 ∧
      (∀ p ∈ searchUserByUsername term profiles,
         p ∈ profiles ∧ containsCI p.username (stripAtSign term) = true) ∧
      SortedLe usernameLe (searchUserByUsername term profiles) ∧
      (jsTrim term ≠ "" → jsTrim (stripAtSign term) ≠ "" →
        (profiles.filter
          (fun p => containsCI p.username (stripAtSign term))).length ≤ 10 →
        ∀ p ∈ profiles, containsCI p.username (stripAtSign term) = true →
          p ∈ searchUserByUsername term profiles) ∧
      (∀ p ∈ selectableResults (some selfId) (searchUserByUsername term profiles),
         p.id ≠ selfId) := by
  intro term profiles selfId
  refine ⟨?_, ?_, ?_, ?_, ?_⟩
  · simp only [searchUserByUsername]
    split
    · simp
    · split
      · simp
      · rw [List.length_take]
        exact Nat.min_le_left _ _
  · intro p hp
    simp only [searchUserByUsername] at hp
    split at hp
    · simp at hp
    · split at hp
      · simp at hp
      · have hpS := List.mem_of_mem_take hp
        have hpf := (mem_sortByLe _ _ _).mp hpS
        exact List.mem_filter.mp hpf
  · simp only [searchUserByUsername]
    split
    · exact List.Pairwise.nil
    · split
      · exact List.Pairwise.nil
      · exact List.Pairwise.sublist (List.take_sublist 10 _)
          (sortedLe_sortByLe usernameLe usernameLe_total usernameLe_trans _)
  · intro h1 h2 hlen p hp hpred
    simp only [searchUserByUsername]
    rw [if_neg h1, if_neg h2]
    have hSlen : (sortByLe usernameLe (profiles.filter
        (fun q => containsCI q.username (stripAtSign term)))).length ≤ 10 := by
      rw [(sortByLe_perm usernameLe _).length_eq]
      exact hlen
    rw [List.take_of_length_le hSlen]
    exact (mem_sortByLe _ _ _).mpr (List.mem_filter.mpr ⟨hp, hpred⟩)
  · intro p hp
    have hkeep := (List.mem_filter.mp hp).2
    simpa using hkeep

def profB : Profile :=
  { id := 1, username := "Alice", full_name := none, avatar_url := none,
    last_seen := none, created_at := none }

/-- Claim C7 witness: searching `@ali` over a directory holding only `Alice`
returns that profile (case-insensitive match despite fewer than 10 results
and the at sign). -/
theorem searchUserByUsername_witness :
    profB ∈ searchUserByUsername "@ali" [profB] :=
  (searchUserByUsername_spec "@ali" [profB] 2).2.2.2.1
    (by decide) (by decide) (by decide) profB (by decide) (by decide)

/-! ### History load (claim C3) -/

theorem msgLe_total : ∀ a b : Message, msgLe a b = true ∨ msgLe b a = true := by
  intro a b
  unfold msgLe
  rcases Nat.le_total a.created_at b.created_at with h | h
  · left
    exact decide_eq_true h
  · right
    exact decide_eq_true h

theorem msgLe_trans : ∀ a b c : Message,
    msgLe a b = true → msgLe b c = true → msgLe a c = true := by
  intro a b c h1 h2
  unfold msgLe at *
  rw [decide_eq_true_eq] at *
  exact Nat.le_trans h1 h2

/-- A backend message between users 1 and 2 with id and creation time `i`. -/
def mkDbMsg (i : Nat) : Message :=
  { id := i, content := "m", user_id := 1, recipient_id := 2,
    conversation_id := none, created_at := i, sent_at := some i,
    delivered_at := none, seen_at := none, status := .sent,
    user_profile := profA }

/-- A backend table of 101 messages between users 1 and 2, the one with
id 100 being the most recent. -/
def db101 : List Message := (List.range 101).map mkDbMsg

set_option maxRecDepth 4096 in
/-- Claim C3 counterexample: with 101 relevant messages, the history load
omits the single most recent message (id 100) while returning the oldest
one (id 0) — the 100 returned rows are the oldest, not the most recent. -/
theorem fetchMessages_drops_most_recent :
    mkDbMsg 100 ∉ fetchMessages 1 2 db101 ∧ mkDbMsg 0 ∈ fetchMessages 1 2 db101 := by
  decide

/-- Claim C3 (amended): the history load returns at most 100 messages, all
exchanged between the two identities, in ascending creation-time order, and
they are the oldest such messages: any relevant message left out is at least
as recent as every returned one. -/
theorem fetchMessages_spec :
    ∀ selfId peerId db,
      (fetchMessages selfId peerId db).length ≤ 100 ∧
      SortedLe msgLe (fetchMessages selfId peerId db) ∧
      (∀ m ∈ fetchMessages selfId peerId db,
         m ∈ db ∧ relevantPair selfId peerId m.user_id m.recipient_id = true) ∧
      (∀ m ∈ db, relevantPair selfId peerId m.user_id m.recipient_id = true →
         m ∉ fetchMessages selfId peerId db →
         ∀ m2 ∈ fetchMessages selfId peerId db, m2.created_at ≤ m.created_at) := by
  intro selfId peerId db
  refine ⟨?_, ?_, ?_, ?_⟩
  · unfold fetchMessages
    rw [List.length_take]
    exact Nat.min_le_left _ _
  · unfold fetchMessages
    exact List.Pairwise.sublist (List.take_sublist 100 _)
      (sortedLe_sortByLe msgLe msgLe_total msgLe_trans _)
  · intro m hm
    unfold fetchMessages at hm
    have hmS := List.mem_of_mem_take hm
    exact List.mem_filter.mp ((mem_sortByLe _ _ _).mp hmS)
  · intro m hmdb hrel hnot m2 hm2
    unfold fetchMessages at hnot hm2
    have hmS : m ∈ sortByLe msgLe
        (db.filter (fun q => relevantPair selfId peerId q.user_id q.recipient_id)) :=
      (mem_sortByLe _ _ _).mpr (List.mem_filter.mpr ⟨hmdb, hrel⟩)
    have hsplit := List.take_append_drop 100 (sortByLe msgLe
      (db.filter (fun q => relevantPair selfId peerId q.user_id q.recipient_id)))
    have hpw : List.Pairwise (fun a b => msgLe a b = true) (sortByLe msgLe
        (db.filter (fun q => relevantPair selfId peerId q.user_id q.recipient_id))) :=
      sortedLe_sortByLe msgLe msgLe_total msgLe_trans _
    rw [← hsplit] at hmS hpw
    have hmdrop : m ∈ (sortByLe msgLe
        (db.filter (fun q => relevantPair selfId peerId q.user_id q.recipient_id))).drop 100 := by
      rcases List.mem_append.mp hmS with h | h
      · exact absurd h hnot
      · exact h
    rcases List.pairwise_append.mp hpw with ⟨_, _, hcross⟩
    have hle := hcross m2 hm2 m hmdrop
    unfold msgLe at hle
    exact of_decide_eq_true hle

/-- Claim C3 witness: a concrete load returns the (only) relevant message. -/
theorem fetchMessages_spec_witness :
    msgA ∈ [msgA] ∧ relevantPair 1 2 msgA.user_id msgA.recipient_id = true :=
  (fetchMessages_spec 1 2 [msgA]).2.2.1 msgA (by decide)

/-! ### Realtime insert reconciliation (claim C6) -/

theorem handleInsert_not_relevant (selfId peerId : Nat) (ev : EventPayload)
    (h : isRelevantEvent selfId peerId ev = false) :
    ∀ db prev, handleInsertEvent selfId peerId ev db prev = prev := by
  intro db prev
  simp [handleInsertEvent, h]

theorem handleInsert_not_found (selfId peerId : Nat) (ev : EventPayload)
    (db : List Message) (hrel : isRelevantEvent selfId peerId ev = true)
    (hfind : db.find? (fun m => m.id == ev.id) = none) :
    ∀ prev, handleInsertEvent selfId peerId ev db prev = prev := by
  intro prev
  simp [handleInsertEvent, hrel, hfind]

theorem handleInsert_dup (selfId peerId : Nat) (ev : EventPayload)
    (db prev : List Message) (d : Message)
    (hrel : isRelevantEvent selfId peerId ev = true)
    (hfind : db.find? (fun m => m.id == ev.id) = some d)
    (hdup : prev.any (fun m => m.id == d.id) = true) :
    handleInsertEvent selfId peerId ev db prev = prev := by
  simp [handleInsertEvent, hrel, hfind, hdup]

theorem handleInsert_new (selfId peerId : Nat) (ev : EventPayload)
    (db prev : List Message) (d : Message)
    (hrel : isRelevantEvent selfId peerId ev = true)
    (hfind : db.find? (fun m => m.id == ev.id) = some d)
    (hnew : prev.any (fun m => m.id == d.id) = false) :
    handleInsertEvent selfId peerId ev db prev = sortByLe msgLe (prev ++ [d]) := by
  simp [handleInsertEvent, hrel, hfind, hnew]

theorem any_id_false {l : List Message} {i : Nat}
    (h : ∀ m ∈ l, m.id ≠ i) : l.any (fun m => m.id == i) = false := by
  rw [List.any_eq_false]
  intro m hm
  simp [h m hm]

theorem any_id_true {l : List Message} {d : Message} (hd : d ∈ l) :
    l.any (fun m => m.id == d.id) = true :=
  List.any_eq_true.mpr ⟨d, hd, by simp⟩

theorem sort_append_comm (prev : List Message) (d1 d2 : Message)
    (hdistinct : (prev ++ [d1, d2]).Pairwise
      (fun a b => a.created_at ≠ b.created_at)) :
    sortByLe msgLe (sortByLe msgLe (prev ++ [d1]) ++ [d2])
      = sortByLe msgLe (sortByLe msgLe (prev ++ [d2]) ++ [d1]) := by
  have pA : List.Perm (sortByLe msgLe (sortByLe msgLe (prev ++ [d1]) ++ [d2]))
      (prev ++ [d1, d2]) := by
    refine (sortByLe_perm msgLe _).trans ?_
    refine (List.Perm.append_right [d2] (sortByLe_perm msgLe (prev ++ [d1]))).trans ?_
    rw [List.append_assoc]
    exact List.Perm.refl _
  have pB : List.Perm (sortByLe msgLe (sortByLe msgLe (prev ++ [d2]) ++ [d1]))
      (prev ++ [d1, d2]) := by
    refine (sortByLe_perm msgLe _).trans ?_
    refine (List.Perm.append_right [d1] (sortByLe_perm msgLe (prev ++ [d2]))).trans ?_
    rw [List.append_assoc]
    exact List.Perm.append_left prev (List.Perm.swap d1 d2 [])
  have hAB : List.Perm (sortByLe msgLe (sortByLe msgLe (prev ++ [d1]) ++ [d2]))
      (sortByLe msgLe (sortByLe msgLe (prev ++ [d2]) ++ [d1])) :=
    pA.trans pB.symm
  have sA : List.Pairwise (fun a b => msgLe a b = true)
      (sortByLe msgLe (sortByLe msgLe (prev ++ [d1]) ++ [d2])) :=
    sortedLe_sortByLe msgLe msgLe_total msgLe_trans _
  have sB : List.Pairwise (fun a b => msgLe a b = true)
      (sortByLe msgLe (sortByLe msgLe (prev ++ [d2]) ++ [d1])) :=
    sortedLe_sortByLe msgLe msgLe_total msgLe_trans _
  have dA : List.Pairwise (fun a b : Message => a.created_at ≠ b.created_at)
      (sortByLe msgLe (sortByLe msgLe (prev ++ [d1]) ++ [d2])) :=
    (pA.pairwise_iff (fun h => Ne.symm h)).mpr hdistinct
  have dB : List.Pairwise (fun a b : Message => a.created_at ≠ b.created_at)
      (sortByLe msgLe (sortByLe msgLe (prev ++ [d2]) ++ [d1])) :=
    (pB.pairwise_iff (fun h => Ne.symm h)).mpr hdistinct
  have strictA : List.Pairwise (fun a b : Message => a.created_at < b.created_at)
      (sortByLe msgLe (sortByLe msgLe (prev ++ [d1]) ++ [d2])) :=
    (sA.and dA).imp (fun h =>
      Nat.lt_of_le_of_ne (of_decide_eq_true h.1) h.2)
  have strictB : List.Pairwise (fun a b : Message => a.created_at < b.created_at)
      (sortByLe msgLe (sortByLe msgLe (prev ++ [d2]) ++ [d1])) :=
    (sB.and dB).imp (fun h =>
      Nat.lt_of_le_of_ne (of_decide_eq_true h.1) h.2)
  haveI : IsAntisymm Message (fun a b => a.created_at < b.created_at) :=
    ⟨fun a b h1 h2 => absurd h2 (Nat.lt_asymm h1)⟩
  exact List.eq_of_perm_of_sorted hAB strictA strictB

def tieMsgA : Message :=
  { id := 1, content := "a", user_id := 1, recipient_id := 2,
    conversation_id := none, created_at := 5, sent_at := some 5,
    delivered_at := none, seen_at := none, status := .sent,
    user_profile := profA }

def tieMsgB : Message :=
  { id := 2, content := "b", user_id := 2, recipient_id := 1,
    conversation_id := none, created_at := 5, sent_at := some 5,
    delivered_at := none, seen_at := none, status := .sent,
    user_profile := profA }

def tieDb : List Message := [tieMsgA, tieMsgB]

/-- Claim C6 counterexample: two relevant inserts whose messages share the
same creation timestamp produce different final lists depending on arrival
order (the re-sort is stable, so ties keep insertion order). -/
theorem handleInsertEvent_order_sensitive :
    handleInsertEvent 1 2 { id := 2, user_id := 2, recipient_id := 1 } tieDb
        (handleInsertEvent 1 2 { id := 1, user_id := 1, recipient_id := 2 } tieDb [])
      ≠ handleInsertEvent 1 2 { id := 1, user_id := 1, recipient_id := 2 } tieDb
        (handleInsertEvent 1 2 { id := 2, user_id := 2, recipient_id := 1 } tieDb []) := by
  decide

/-- Claim C6 (amended): applying a relevant insert event is idempotent (a
message whose id is already present leaves the list unchanged, and replaying
the same event is a no-op), and two insert events commute — so the final
list does not depend on arrival order — provided the messages involved have
pairwise distinct creation timestamps; with equal timestamps the results
agree only up to order. -/
theorem handleInsertEvent_idem_comm :
    (∀ selfId peerId ev db prev,
       handleInsertEvent selfId peerId ev db
           (handleInsertEvent selfId peerId ev db prev)
         = handleInsertEvent selfId peerId ev db prev) ∧
    (∀ selfId peerId e1 e2 db prev d1 d2,
       db.find? (fun m => m.id == e1.id) = some d1 →
       db.find? (fun m => m.id == e2.id) = some d2 →
       d1.id ≠ d2.id →
       (∀ m ∈ prev, m.id ≠ d1.id ∧ m.id ≠ d2.id) →
       (prev ++ [d1, d2]).Pairwise (fun a b => a.created_at ≠ b.created_at) →
       handleInsertEvent selfId peerId e2 db
           (handleInsertEvent selfId peerId e1 db prev)
         = handleInsertEvent selfId peerId e1 db
             (handleInsertEvent selfId peerId e2 db prev)) := by
  constructor
  · intro selfId peerId ev db prev
    cases hrel : isRelevantEvent selfId peerId ev with
    | false =>
      rw [handleInsert_not_relevant selfId peerId ev hrel,
        handleInsert_not_relevant selfId peerId ev hrel]
    | true =>
      cases hfind : db.find? (fun m => m.id == ev.id) with
      | none =>
        rw [handleInsert_not_found selfId peerId ev db hrel hfind,
          handleInsert_not_found selfId peerId ev db hrel hfind]
      | some d =>
        cases hdup : prev.any (fun m => m.id == d.id) with
        | true =>
          rw [handleInsert_dup selfId peerId ev db prev d hrel hfind hdup,
            handleInsert_dup selfId peerId ev db prev d hrel hfind hdup]
        | false =>
          rw [handleInsert_new selfId peerId ev db prev d hrel hfind hdup]
          apply handleInsert_dup selfId peerId ev db _ d hrel hfind
          exact any_id_true ((mem_sortByLe _ _ _).mpr
            (List.mem_append.mpr (Or.inr (List.mem_singleton.mpr rfl))))
  · intro selfId peerId e1 e2 db prev d1 d2 hf1 hf2 hne hfresh hdistinct
    cases hrel1 : isRelevantEvent selfId peerId e1 with
    | false =>
      simp only [handleInsert_not_relevant selfId peerId e1 hrel1]
    | true =>
      cases hrel2 : isRelevantEvent selfId peerId e2 with
      | false =>
        simp only [handleInsert_not_relevant selfId peerId e2 hrel2]
      | true =>
        have hany1 : prev.any (fun m => m.id == d1.id) = false :=
          any_id_false (fun m hm => (hfresh m hm).1)
        have hany2 : prev.any (fun m => m.id == d2.id) = false :=
          any_id_false (fun m hm => (hfresh m hm).2)
        rw [handleInsert_new selfId peerId e1 db prev d1 hrel1 hf1 hany1,
          handleInsert_new selfId peerId e2 db prev d2 hrel2 hf2 hany2]
        have hany12 : (sortByLe msgLe (prev ++ [d1])).any
            (fun m => m.id == d2.id) = false := by
          apply any_id_false
          intro m hm
          rcases List.mem_append.mp ((mem_sortByLe _ _ _).mp hm) with h | h
          · exact (hfresh m h).2
          · rcases List.mem_singleton.mp h with rfl
            exact hne
        have hany21 : (sortByLe msgLe (prev ++ [d2])).any
            (fun m => m.id == d1.id) = false := by
          apply any_id_false
          intro m hm
          rcases List.mem_append.mp ((mem_sortByLe _ _ _).mp hm) with h | h
          · exact (hfresh m h).1
          · rcases List.mem_singleton.mp h with rfl
            exact hne.symm
        rw [handleInsert_new selfId peerId e2 db _ d2 hrel2 hf2 hany12,
          handleInsert_new selfId peerId e1 db _ d1 hrel1 hf1 hany21]
        exact sort_append_comm prev d1 d2 hdistinct

/-- Claim C6 witness: replaying the same concrete insert event is a no-op. -/
theorem handleInsertEvent_idem_witness :
    handleInsertEvent 1 2 { id := 3, user_id := 1, recipient_id := 2 } [msgA]
        (handleInsertEvent 1 2 { id := 3, user_id := 1, recipient_id := 2 } [msgA] [])
      = handleInsertEvent 1 2 { id := 3, user_id := 1, recipient_id := 2 } [msgA] [] :=
  handleInsertEvent_idem_comm.1 1 2 { id := 3, user_id := 1, recipient_id := 2 } [msgA] []
